import Mathlib

set_option maxRecDepth 20000

/-!
Shallow embedding of the tinker_r2egym repository (GRPO training loop and
OpenAI-compatible inference proxy) together with proofs of the verified
claims about it.

The embedding covers:
* a model of Python JSON values with `loads` / `dumps` (as used by
  `json.loads` / `json.dumps` in the source; JSON numbers are modelled as
  integers, which covers every payload the verified claims exercise),
* the `<tool_call>` block extraction of `tinker_proxy._parse_tool_calls`
  (the regex is rendered as an executable scanner with the same
  leftmost / lazy semantics),
* `TinkerInferenceServer.generate` and `Handler.do_POST` with the external
  tokenizer / chat template / remote sampler abstracted as function fields,
* `trajectories_to_training_data` and `train_step` of `tinker_grpo.py`,
  with rewards and weights as exact rationals.
-/

/-- JSON values as produced by Python `json.loads`.  Numbers are modelled as
integers: every payload exercised by the verified claims contains only
integer numerals. -/
inductive Json where
  | null : Json
  | bool (b : Bool) : Json
  | num (n : Int) : Json
  | str (s : String) : Json
  | arr (xs : List Json) : Json
  | obj (members : List (String × Json)) : Json

/-- Key lookup on a decoded JSON object (`dict.get`).  Python's `json.loads`
keeps the last binding of a repeated key, so lookup takes the last matching
entry; lookup on a non-object yields `none`. -/
def jget : Json → String → Option Json
  | Json.obj ms, k => (ms.reverse.find? (fun m => m.1 == k)).map (fun m => m.2)
  | _, _ => none

/-- Python truthiness of a decoded JSON value. -/
def jsonTruthy : Json → Bool
  | Json.null => false
  | Json.bool b => b
  | Json.num n => n != 0
  | Json.str s => s != ""
  | Json.arr xs => !xs.isEmpty
  | Json.obj ms => !ms.isEmpty

/-- Whether a JSON value is a string (`isinstance(v, str)`). -/
def isStr : Json → Bool
  | Json.str _ => true
  | _ => false

def hexDigit (n : Nat) : Char :=
  if n < 10 then Char.ofNat (48 + n) else Char.ofNat (87 + n)

def hex4 (n : Nat) : String :=
  String.mk [hexDigit (n / 4096 % 16), hexDigit (n / 256 % 16),
             hexDigit (n / 16 % 16), hexDigit (n % 16)]

/-- Escaping of one character as performed by `json.dumps` with its default
`ensure_ascii=True`: printable ASCII passes through, short escapes for the
usual control characters, `\uXXXX` for the rest (surrogate pairs above the
basic multilingual plane). -/
def escapeChar (c : Char) : String :=
  if c = '"' then "\\\""
  else if c = '\\' then "\\\\"
  else if c = '\n' then "\\n"
  else if c = '\r' then "\\r"
  else if c = '\t' then "\\t"
  else if c = '\x08' then "\\b"
  else if c = '\x0c' then "\\f"
  else if c.toNat < 32 then "\\u" ++ hex4 c.toNat
  else if c.toNat < 127 then String.mk [c]
  else if c.toNat ≤ 65535 then "\\u" ++ hex4 c.toNat
  else
    let v := c.toNat - 65536
    "\\u" ++ hex4 (55296 + v / 1024) ++ "\\u" ++ hex4 (56320 + v % 1024)

def dumpString (s : String) : String :=
  "\"" ++ String.join (s.toList.map escapeChar) ++ "\""

mutual

/-- Python `json.dumps` with default options: item separator ", ",
key separator ": ", `ensure_ascii=True`. -/
def dumps : Json → String
  | Json.null => "null"
  | Json.bool true => "true"
  | Json.bool false => "false"
  | Json.num n => toString n
  | Json.str s => dumpString s
  | Json.arr xs => "[" ++ dumpsArr xs ++ "]"
  | Json.obj ms => "\x7b" ++ dumpsObj ms ++ "\x7d"

def dumpsArr : List Json → String
  | [] => ""
  | [x] => dumps x
  | x :: y :: xs => dumps x ++ ", " ++ dumpsArr (y :: xs)

def dumpsObj : List (String × Json) → String
  | [] => ""
  | [(k, v)] => dumpString k ++ ": " ++ dumps v
  | (k, v) :: m :: ms => dumpString k ++ ": " ++ dumps v ++ ", " ++ dumpsObj (m :: ms)

end

/-! ### JSON parsing (`json.loads`) -/

def jsonWsChar (c : Char) : Bool :=
  c = ' ' || c = '\t' || c = '\n' || c = '\r'

def skipWs (cs : List Char) : List Char := cs.dropWhile jsonWsChar

def isDigitChar (c : Char) : Bool := '0' ≤ c && c ≤ '9'

/-- Strip a literal character sequence from the front of the input. -/
def stripLit : List Char → List Char → Option (List Char)
  | [], cs => some cs
  | _ :: _, [] => none
  | l :: ls, c :: cs => if c = l then stripLit ls cs else none

def hexVal (c : Char) : Option Nat :=
  if '0' ≤ c && c ≤ '9' then some (c.toNat - 48)
  else if 'a' ≤ c && c ≤ 'f' then some (c.toNat - 87)
  else if 'A' ≤ c && c ≤ 'F' then some (c.toNat - 70)
  else none

/-- Body of a JSON string after the opening quote: characters up to the
closing quote, decoding escapes.  A `\uXXXX` high surrogate followed by a low
surrogate is combined into one code point (as `json.loads` does); unescaped
control characters are rejected (strict mode). -/
def parseStringAux : Nat → List Char → List Char → Option (List Char × List Char)
  | 0, _, _ => none
  | _ + 1, _, [] => none
  | fuel + 1, acc, c :: rest =>
    if c = '"' then some (acc.reverse, rest)
    else if c = '\\' then
      match rest with
      | [] => none
      | e :: rest2 =>
        if e = '"' then parseStringAux fuel ('"' :: acc) rest2
        else if e = '\\' then parseStringAux fuel ('\\' :: acc) rest2
        else if e = '/' then parseStringAux fuel ('/' :: acc) rest2
        else if e = 'b' then parseStringAux fuel ('\x08' :: acc) rest2
        else if e = 'f' then parseStringAux fuel ('\x0c' :: acc) rest2
        else if e = 'n' then parseStringAux fuel ('\n' :: acc) rest2
        else if e = 'r' then parseStringAux fuel ('\r' :: acc) rest2
        else if e = 't' then parseStringAux fuel ('\t' :: acc) rest2
        else if e = 'u' then
          match rest2 with
          | h1 :: h2 :: h3 :: h4 :: rest3 =>
            match hexVal h1, hexVal h2, hexVal h3, hexVal h4 with
            | some v1, some v2, some v3, some v4 =>
              let v := v1 * 4096 + v2 * 256 + v3 * 16 + v4
              if 55296 ≤ v && v ≤ 56319 then
                match rest3 with
                | '\\' :: 'u' :: g1 :: g2 :: g3 :: g4 :: rest4 =>
                  match hexVal g1, hexVal g2, hexVal g3, hexVal g4 with
                  | some w1, some w2, some w3, some w4 =>
                    let w := w1 * 4096 + w2 * 256 + w3 * 16 + w4
                    if 56320 ≤ w && w ≤ 57343 then
                      parseStringAux fuel
                        (Char.ofNat (65536 + (v - 55296) * 1024 + (w - 56320)) :: acc) rest4
                    else parseStringAux fuel (Char.ofNat v :: acc) rest3
                  | _, _, _, _ => parseStringAux fuel (Char.ofNat v :: acc) rest3
                | _ => parseStringAux fuel (Char.ofNat v :: acc) rest3
              else parseStringAux fuel (Char.ofNat v :: acc) rest3
            | _, _, _, _ => none
          | _ => none
        else none
    else if c.toNat < 32 then none
    else parseStringAux fuel (c :: acc) rest

def parseDigits (cs : List Char) : Option (Nat × List Char) :=
  let ds := cs.takeWhile isDigitChar
  if ds.isEmpty then none
  else some (ds.foldl (fun a c => a * 10 + (c.toNat - 48)) 0, cs.dropWhile isDigitChar)

/-- Strict JSON unsigned integer literal: `0`, or a nonzero digit followed by
digits (no leading zeros). -/
def parseUNum : List Char → Option (Nat × List Char)
  | '0' :: rest =>
    match rest with
    | c :: _ => if isDigitChar c then none else some (0, rest)
    | [] => some (0, [])
  | cs =>
    match cs with
    | c :: _ => if isDigitChar c then parseDigits cs else none
    | [] => none

/-- A JSON number token.  Fractions and exponents are not modelled (every
payload the verified claims exercise is an integer literal), so a numeral
followed by '.', 'e' or 'E' is rejected. -/
def parseNumberTok (cs : List Char) : Option (Int × List Char) :=
  let core : Option (Int × List Char) :=
    match cs with
    | '-' :: rest => (parseUNum rest).map (fun p => (-(p.1 : Int), p.2))
    | _ => (parseUNum cs).map (fun p => ((p.1 : Int), p.2))
  match core with
  | some (n, rest) =>
    match rest with
    | c :: _ => if c = '.' || c = 'e' || c = 'E' then none else some (n, rest)
    | [] => some (n, [])
  | none => none

mutual

/-- One JSON value, fuel-indexed.  `loads` supplies ample fuel. -/
def parseValue : Nat → List Char → Option (Json × List Char)
  | 0, _ => none
  | fuel + 1, cs0 =>
    let cs := skipWs cs0
    match cs with
    | [] => none
    | 'n' :: _ => (stripLit ['n', 'u', 'l', 'l'] cs).map (fun r => (Json.null, r))
    | 't' :: _ => (stripLit ['t', 'r', 'u', 'e'] cs).map (fun r => (Json.bool true, r))
    | 'f' :: _ => (stripLit ['f', 'a', 'l', 's', 'e'] cs).map (fun r => (Json.bool false, r))
    | '"' :: rest =>
      (parseStringAux (rest.length + 1) [] rest).map
        (fun p => (Json.str (String.mk p.1), p.2))
    | '\x7b' :: rest => parseObjBody fuel rest
    | '[' :: rest => parseArrBody fuel rest
    | _ => (parseNumberTok cs).map (fun p => (Json.num p.1, p.2))

/-- Object body after the opening brace. -/
def parseObjBody : Nat → List Char → Option (Json × List Char)
  | 0, _ => none
  | fuel + 1, cs0 =>
    match skipWs cs0 with
    | '\x7d' :: rest => some (Json.obj [], rest)
    | cs => parseMembers fuel [] cs

/-- One or more `"key": value` members, comma separated, ending at a brace. -/
def parseMembers : Nat → List (String × Json) → List Char → Option (Json × List Char)
  | 0, _, _ => none
  | fuel + 1, acc, cs0 =>
    match skipWs cs0 with
    | '"' :: rest =>
      match parseStringAux (rest.length + 1) [] rest with
      | none => none
      | some (kcs, rest2) =>
        match skipWs rest2 with
        | ':' :: rest3 =>
          match parseValue fuel rest3 with
          | none => none
          | some (v, rest4) =>
            match skipWs rest4 with
            | ',' :: rest5 => parseMembers fuel (acc ++ [(String.mk kcs, v)]) rest5
            | '\x7d' :: rest5 => some (Json.obj (acc ++ [(String.mk kcs, v)]), rest5)
            | _ => none
        | _ => none
    | _ => none

/-- Array body after the opening bracket. -/
def parseArrBody : Nat → List Char → Option (Json × List Char)
  | 0, _ => none
  | fuel + 1, cs0 =>
    match skipWs cs0 with
    | ']' :: rest => some (Json.arr [], rest)
    | cs => parseElems fuel [] cs

/-- One or more array elements, comma separated, ending at a bracket. -/
def parseElems : Nat → List Json → List Char → Option (Json × List Char)
  | 0, _, _ => none
  | fuel + 1, acc, cs =>
    match parseValue fuel cs with
    | none => none
    | some (v, rest) =>
      match skipWs rest with
      | ',' :: rest2 => parseElems fuel (acc ++ [v]) rest2
      | ']' :: rest2 => some (Json.arr (acc ++ [v]), rest2)
      | _ => none

end

/-- Python `json.loads`: one JSON value, surrounded by optional whitespace.
The fuel bound `4 * (length + 1)` dominates the recursion depth of any
input (each nesting level consumes at least one character at a bounded
fuel cost per character). -/
def loads (s : String) : Option Json :=
  let cs := s.toList
  match parseValue (4 * (cs.length + 1)) cs with
  | some (j, rest) => if (skipWs rest).isEmpty then some j else none
  | none => none

/-! ### Tool-call extraction (`tinker_proxy._parse_tool_calls`) -/

/-- ASCII whitespace matched by the regex class in the source's
`_TOOL_CALL_RE` pattern and by `str.strip` (the additional Unicode
whitespace both also accept never occurs in the verified payloads). -/
def pyWsChar (c : Char) : Bool :=
  c = ' ' || c = '\t' || c = '\n' || c = '\r' || c = '\x0b' || c = '\x0c'

def toolCallOpenTag : List Char := "<tool_call>".toList

def toolCallCloseTag : List Char := "</tool_call>".toList

/-- The lazy part of `_TOOL_CALL_RE` after the opening brace: consume the
fewest characters such that a closing brace, optional whitespace and the
literal closing tag follow.  Returns the consumed body (closing brace
included) and the rest of the input after the closing tag. -/
def lazyScan : List Char → List Char → Option (List Char × List Char)
  | _, [] => none
  | acc, c :: rest =>
    if c = '\x7d' then
      match stripLit toolCallCloseTag (rest.dropWhile pyWsChar) with
      | some rem => some (acc.reverse ++ ['\x7d'], rem)
      | none => lazyScan (c :: acc) rest
    else lazyScan (c :: acc) rest

/-- Match the whole pattern
`<tool_call>\s*(\{.*?\})\s*</tool_call>` (DOTALL) at the start of the input.
Returns the captured group and the rest of the input after the match. -/
def matchBlockAt (cs : List Char) : Option (List Char × List Char) :=
  match stripLit toolCallOpenTag cs with
  | none => none
  | some cs1 =>
    match cs1.dropWhile pyWsChar with
    | '\x7b' :: tail =>
      match lazyScan [] tail with
      | some (body, rem) => some ('\x7b' :: body, rem)
      | none => none
    | _ => none

/-- `finditer` over the pattern: scan left to right, at each position try the
pattern, after a match resume after its end.  Fuel equals the input length:
every step strictly shortens the input. -/
def findBlocksAux : Nat → List Char → List String
  | 0, _ => []
  | _ + 1, [] => []
  | fuel + 1, c :: rest =>
    match matchBlockAt (c :: rest) with
    | some (grp, rem) => String.mk grp :: findBlocksAux fuel rem
    | none => findBlocksAux fuel rest

/-- All captured `{...}` groups of the tool-call pattern in the text. -/
def findBlocks (text : String) : List String :=
  findBlocksAux (text.toList.length + 1) text.toList

structure ToolFunction where
  name : String
  arguments : String
deriving DecidableEq

/-- One OpenAI-format tool call as built by `_parse_tool_calls`. -/
structure ToolCall where
  id : String
  type : String
  function : ToolFunction
deriving DecidableEq

/-- Lines 176-187 of tinker_proxy.py: one successfully decoded block to an
OpenAI tool-call record.  `arguments` defaults to the empty object and, when
not already a string, is serialized with `json.dumps`; `name` defaults to the
empty string.  (A non-string `name` flows through verbatim in Python; it is
rendered via its JSON serialization here, which no verified claim touches.) -/
def toToolCall (id : String) (call : Json) : ToolCall :=
  let argumentsRaw := (jget call "arguments").getD (Json.obj [])
  let arguments : String :=
    match argumentsRaw with
    | Json.str s => s
    | v => dumps v
  let name : String :=
    match jget call "name" with
    | some (Json.str s) => s
    | some v => dumps v
    | none => ""
  { id := id, type := "function", function := { name := name, arguments := arguments } }

/-- `_parse_tool_calls`: extract the tagged blocks, decode each one as JSON
(a block whose JSON fails to decode is logged and skipped), and convert each
decoded block to an OpenAI tool call with a fresh id.  The source draws ids
from `uuid`; the id supply is abstracted as `fresh`. -/
def parseToolCalls (fresh : Nat → String) (text : String) : List ToolCall :=
  ((findBlocks text).filterMap loads).mapIdx (fun i call => toToolCall (fresh i) call)

/-- `re.split(r"<tool_call>", text, maxsplit=1)[0]`: the text before the
first occurrence of the opening tag (the whole text if it never occurs). -/
def beforeTagAux : List Char → List Char
  | [] => []
  | c :: rest =>
    match stripLit toolCallOpenTag (c :: rest) with
    | some _ => []
    | none => c :: beforeTagAux rest

def textBeforeTag (text : String) : String := String.mk (beforeTagAux text.toList)

/-- Python `str.strip()` (ASCII whitespace; see `pyWsChar`). -/
def pyStrip (s : String) : String :=
  String.mk (((s.toList.dropWhile pyWsChar).reverse.dropWhile pyWsChar).reverse)

/-- `... .strip() or None` on line 125 of tinker_proxy.py. -/
def stripOrNone (s : String) : Option String :=
  let t := pyStrip s
  if t = "" then none else some t

/-- Python `int(str)`: optional surrounding whitespace, optional sign, one or
more digits.  (Digit-group underscores, which Python also accepts, are not
modelled.) -/
def pyInt (s : String) : Option Int :=
  let cs := ((s.toList.dropWhile pyWsChar).reverse.dropWhile pyWsChar).reverse
  match cs with
  | '-' :: ds =>
    if ds ≠ [] ∧ ds.all isDigitChar then
      some (-(ds.foldl (fun a c => a * 10 + (c.toNat - 48)) 0 : Nat))
    else none
  | '+' :: ds =>
    if ds ≠ [] ∧ ds.all isDigitChar then
      some ((ds.foldl (fun a c => a * 10 + (c.toNat - 48)) 0 : Nat))
    else none
  | ds =>
    if ds ≠ [] ∧ ds.all isDigitChar then
      some ((ds.foldl (fun a c => a * 10 + (c.toNat - 48)) 0 : Nat))
    else none

/-! ### The inference proxy (`TinkerInferenceServer.generate`, `Handler.do_POST`) -/

/-- `tinker.types.SamplingParams` as built on lines 104-108 of
tinker_proxy.py.  Temperatures are exact rationals. -/
structure SamplingParams where
  max_tokens : Nat
  temperature : ℚ
  stop : List String
deriving DecidableEq

structure ChatMessage where
  role : String
  content : Option String
  tool_calls : Option (List ToolCall)
deriving DecidableEq

structure Choice where
  index : Nat
  message : ChatMessage
  finish_reason : String
deriving DecidableEq

structure Usage where
  prompt_tokens : Nat
  completion_tokens : Nat
  total_tokens : Nat
deriving DecidableEq

/-- The response dictionary built by `generate` (lines 132-149).  The
`id` (a fresh uuid) and `created` (the wall clock) fields are fresh values
no verified claim depends on and are not modelled. -/
structure ChatCompletion where
  model : String
  choices : List Choice
  usage : Usage
deriving DecidableEq

/-- The state of a `TinkerInferenceServer` after construction: the model
name plus the external collaborators created once at startup — the
tokenizer (`apply_chat_template`, `encode`, `decode`), the remote sampling
client (`sample`, which may fail), and the uuid supply for tool-call ids. -/
structure Server where
  model_name : String
  apply_chat_template : List Json → Bool → Option (List Json) → String
  encode : String → List Nat
  decode : List Nat → String
  sample : SamplingParams → Except String (List Nat)
  fresh_id : Nat → String

/-- Line 106 of tinker_proxy.py: `max(temperature, 0.01)` — the remote
service does not accept a temperature of exactly zero. -/
def effective_temperature (t : ℚ) : ℚ := max t (1 / 100)

/-- `TinkerInferenceServer.generate` (lines 76-149).  `tools` is forwarded
to the chat template only when truthy (a non-empty list); the decoded output
is scanned for tool-call blocks only in that case.  When blocks are found
the content is the stripped text before the first opening tag (or absent if
that is empty) and the finish reason is "tool_calls"; otherwise the content
is the full decoded text and the finish reason is "stop". -/
def generate (srv : Server) (messages : List Json) (temperature : ℚ)
    (max_tokens : Nat) (stop : Option (List String)) (tools : Option (List Json)) :
    Except String ChatCompletion :=
  let toolsArg : Option (List Json) :=
    match tools with
    | some (t :: ts) => some (t :: ts)
    | _ => none
  let prompt_text := srv.apply_chat_template messages true toolsArg
  let prompt_tokens := srv.encode prompt_text
  let params : SamplingParams :=
    { max_tokens := max_tokens
      temperature := effective_temperature temperature
      stop := stop.getD [] }
  match srv.sample params with
  | Except.error e => Except.error e
  | Except.ok output_tokens =>
    let completion_text := srv.decode output_tokens
    let tool_calls : List ToolCall :=
      match toolsArg with
      | some _ => parseToolCalls srv.fresh_id completion_text
      | none => []
    let usage : Usage :=
      { prompt_tokens := prompt_tokens.length
        completion_tokens := output_tokens.length
        total_tokens := prompt_tokens.length + output_tokens.length }
    if tool_calls = [] then
      Except.ok
        { model := srv.model_name
          choices := [{ index := 0
                        message := { role := "assistant"
                                     content := some completion_text
                                     tool_calls := none }
                        finish_reason := "stop" }]
          usage := usage }
    else
      Except.ok
        { model := srv.model_name
          choices := [{ index := 0
                        message := { role := "assistant"
                                     content := stripOrNone (textBeforeTag completion_text)
                                     tool_calls := some tool_calls }
                        finish_reason := "tool_calls" }]
          usage := usage }

inductive ResponseBody where
  | completionR (c : ChatCompletion) : ResponseBody
  | errorR (message : String) : ResponseBody
  | emptyR : ResponseBody
deriving DecidableEq

/-- What one `do_POST` invocation does: either a response is written with a
status code, or an exception escapes the handler uncaught. -/
inductive HttpOutcome where
  | response (status : Nat) (body : ResponseBody) : HttpOutcome
  | raised (reason : String) : HttpOutcome
deriving DecidableEq

/-- `self.rfile.read(n)` on the request stream. -/
def readBody (n : Int) (stream : String) : String :=
  if n < 0 then stream else String.mk (stream.toList.take n.toNat)

/-- `Handler.do_POST` (lines 195-220 of tinker_proxy.py).  Reading the
`Content-Length` header and JSON-decoding the body happen BEFORE the
`try`, so a failure there escapes the handler (`HttpOutcome.raised`); the
`try`/`except` guards only the `generate` call, turning its failure into a
500 response.  Field extraction uses `.get` with the defaults of the
source; a non-numeric `temperature` or `max_tokens` (which would raise
inside the guarded region) is not modelled, as no verified claim exercises
one. -/
def do_POST (srv : Server) (path : String) (contentLengthHeader : Option String)
    (stream : String) : HttpOutcome :=
  if path = "/v1/chat/completions" ∨ path = "/chat/completions" then
    match contentLengthHeader with
    | none => HttpOutcome.raised "TypeError: int() of missing Content-Length"
    | some clStr =>
      match pyInt clStr with
      | none => HttpOutcome.raised "ValueError: invalid Content-Length"
      | some n =>
        match loads (readBody n stream) with
        | none => HttpOutcome.raised "json.JSONDecodeError"
        | some body =>
          let messages : List Json :=
            match jget body "messages" with
            | some (Json.arr l) => l
            | _ => []
          let temperature : ℚ :=
            match jget body "temperature" with
            | some (Json.num t) => (t : ℚ)
            | _ => 0
          let max_tokens : Nat :=
            match jget body "max_tokens" with
            | some (Json.num m) => m.toNat
            | _ => 4096
          let stop : Option (List String) :=
            match jget body "stop" with
            | some (Json.arr l) =>
              some (l.map (fun v => match v with | Json.str s => s | w => dumps w))
            | _ => none
          let tools : Option (List Json) :=
            match jget body "tools" with
            | some (Json.arr l) => some l
            | _ => none
          match generate srv messages temperature max_tokens stop tools with
          | Except.ok result => HttpOutcome.response 200 (ResponseBody.completionR result)
          | Except.error e => HttpOutcome.response 500 (ResponseBody.errorR e)
  else HttpOutcome.response 404 ResponseBody.emptyR

/-! ### The GRPO training-data pipeline (`tinker_grpo.py`) -/

/-- The tokenizer as used by `trajectories_to_training_data`: `encode` takes
the text and the `add_special_tokens` flag. -/
structure Tokenizer where
  encode : String → Bool → List Nat
  eos_token_id : Nat

/-- One rollout record as produced by `collect_rollouts` (lines 136-140):
a serialized trajectory, a scalar reward and a task id.  Rewards are exact
rationals (the source uses Python floats with no further precision
contract). -/
structure Rollout where
  trajectory_json : String
  reward : ℚ
  task_id : String
deriving DecidableEq

/-- One `tinker.Datum` (lines 206-212): the tokenized input, the shifted
target tokens and the per-token loss weights. -/
structure Datum where
  model_input : List Nat
  target_tokens : List Nat
  weights : List ℚ
deriving DecidableEq

/-- The text of a JSON value as consumed by the source's f-string and
tokenizer calls.  Trajectory fields are strings in practice; a non-string
value is rendered via its JSON serialization here (in the source a truthy
non-string would raise inside `tokenizer.encode`, which no verified claim
exercises). -/
def jsonText : Json → String
  | Json.str s => s
  | v => dumps v

/-- Lines 169-172 of tinker_grpo.py: the GRPO group advantages.
`mean_reward = sum(rewards) / len(rewards) if rewards else 0.0` and
`advantages = [r - mean_reward for r in rewards]`. -/
def groupAdvantages (rewards : List ℚ) : List ℚ :=
  let mean_reward : ℚ := if rewards = [] then 0 else rewards.sum / rewards.length
  rewards.map (fun r => r - mean_reward)

/-- Lines 178-213 of tinker_grpo.py, the per-rollout datum: decode the
trajectory (a decode failure skips the rollout), extract the problem
statement and output patch, skip when the completion text is empty, then
tokenize and build the weight and target sequences. -/
def buildDatum (tok : Tokenizer) (rollout : Rollout) (advantage : ℚ) : Option Datum :=
  match loads rollout.trajectory_json with
  | none => none
  | some traj =>
    let problem_statement := (jget traj "problem_statement").getD (Json.str "")
    let output_patch := (jget traj "output_patch").getD (Json.str "")
    let prompt_text := "Fix the following issue:\n" ++ jsonText problem_statement
    let completion_text := if jsonTruthy output_patch then jsonText output_patch else ""
    if completion_text = "" then none
    else
      let prompt_tokens := tok.encode prompt_text true
      let completion_tokens := tok.encode completion_text false
      let full_tokens := prompt_tokens ++ completion_tokens
      let weights := List.replicate prompt_tokens.length (0 : ℚ) ++
                     List.replicate completion_tokens.length advantage
      let target_tokens := full_tokens.drop 1 ++ [tok.eos_token_id]
      some { model_input := full_tokens
             target_tokens := target_tokens
             weights := weights }

/-- The body of the `for group in rollout_groups` loop (lines 165-213):
an empty group is skipped, a group whose advantages are all exactly zero is
skipped, and otherwise each rollout paired with its advantage contributes a
datum when `buildDatum` succeeds. -/
def groupData (tok : Tokenizer) (group : List Rollout) : List Datum :=
  if group = [] then []
  else
    let rewards := group.map (fun r => r.reward)
    let advantages := groupAdvantages rewards
    if _h : ∀ a ∈ advantages, a = 0 then []
    else (group.zip advantages).filterMap (fun p => buildDatum tok p.1 p.2)

/-- `trajectories_to_training_data` (lines 147-215): the datums of all
groups, pooled in order. -/
def trajectories_to_training_data (tok : Tokenizer)
    (rollout_groups : List (List Rollout)) : List Datum :=
  (rollout_groups.map (groupData tok)).flatten

/-- One remote training-service operation issued by `train_step`. -/
inductive ServiceCall where
  | forward_backward (data : List Datum) (loss_fn : String) : ServiceCall
  | optim_step (learning_rate beta1 beta2 eps : ℚ) : ServiceCall
deriving DecidableEq

structure StepMetrics where
  loss : ℚ
  num_samples : Nat
deriving DecidableEq

/-- `train_step` (lines 218-241 of tinker_grpo.py): an empty batch returns
zero loss and zero samples immediately; otherwise one forward/backward pass
with the "importance_sampling" loss is awaited and then one Adam optimizer
step is issued.  The remote service is abstracted by `fb_metrics`, the
metrics dictionary of the forward/backward result (`none` models a falsy
`metrics`); the returned trace lists the service calls issued, in order. -/
def train_step (fb_metrics : List Datum → Option (List (String × ℚ)))
    (data : List Datum) (learning_rate : ℚ) : StepMetrics × List ServiceCall :=
  if data = [] then ({ loss := 0, num_samples := 0 }, [])
  else
    let loss : ℚ :=
      match fb_metrics data with
      | some ms => (((ms.find? (fun m => m.1 == "loss")).map (fun m => m.2)).getD 0)
      | none => 0
    ({ loss := loss, num_samples := data.length },
     [ServiceCall.forward_backward data "importance_sampling",
      ServiceCall.optim_step learning_rate (9 / 10) (19 / 20) (1 / 100000000)])

/-! ### Verified claims -/

theorem list_sum_map_sub (l : List ℚ) (m : ℚ) :
    (l.map (fun r => r - m)).sum = l.sum - l.length * m := by
  induction l with
  | nil => simp
  | cons x xs ih =>
    simp only [List.map_cons, List.sum_cons, ih, List.length_cons]
    push_cast
    ring

theorem list_sum_const (l : List ℚ) (c : ℚ) (h : ∀ x ∈ l, x = c) :
    l.sum = l.length * c := by
  induction l with
  | nil => simp
  | cons x xs ih =>
    have hx : x = c := h x (List.mem_cons_self _ _)
    have hxs : xs.sum = xs.length * c := ih (fun y hy => h y (List.mem_cons_of_mem _ hy))
    simp only [List.sum_cons, hx, hxs, List.length_cons]
    push_cast
    ring

/-- C1: for a rollout group with at least one member, the advantage of each
rollout is its reward minus the arithmetic mean of the group's rewards, and
the advantages sum to zero (exactly, in the rational model of the source's
float arithmetic). -/
theorem group_advantages_center_sum_zero (group : List Rollout) (h : group ≠ []) :
    groupAdvantages (group.map (fun r => r.reward)) =
      (group.map (fun r => r.reward)).map
        (fun r => r - (group.map (fun r => r.reward)).sum / group.length) ∧
    (groupAdvantages (group.map (fun r => r.reward))).sum = 0 := by
  set rewards := group.map (fun r => r.reward) with hrw
  have hne : rewards ≠ [] := by
    simpa [hrw] using h
  have hlen : rewards.length = group.length := by simp [hrw]
  have hlenq : (rewards.length : ℚ) ≠ 0 := by
    have : rewards.length ≠ 0 := fun hc => hne (List.eq_nil_of_length_eq_zero hc)
    exact_mod_cast this
  constructor
  · simp [groupAdvantages, hne, hlen]
  · simp only [groupAdvantages, if_neg hne, list_sum_map_sub]
    field_simp

/-- Witness for C1 at the concrete group with rewards 2 and 0. -/
theorem group_advantages_center_sum_zero_witness :
    ([⟨"", 2, "a"⟩, ⟨"", 0, "a"⟩] : List Rollout) ≠ [] ∧
    (groupAdvantages (([⟨"", 2, "a"⟩, ⟨"", 0, "a"⟩] : List Rollout).map (fun r => r.reward)) =
      (([⟨"", 2, "a"⟩, ⟨"", 0, "a"⟩] : List Rollout).map (fun r => r.reward)).map
        (fun r => r - (([⟨"", 2, "a"⟩, ⟨"", 0, "a"⟩] : List Rollout).map (fun r => r.reward)).sum /
          ([⟨"", 2, "a"⟩, ⟨"", 0, "a"⟩] : List Rollout).length) ∧
    (groupAdvantages (([⟨"", 2, "a"⟩, ⟨"", 0, "a"⟩] : List Rollout).map (fun r => r.reward))).sum = 0) :=
  ⟨by decide, group_advantages_center_sum_zero [⟨"", 2, "a"⟩, ⟨"", 0, "a"⟩] (by decide)⟩

/-- C2: a rollout group in which every reward equals every other (including
the empty group and the all-zero group) yields no datums, and its presence
in the group list leaves `trajectories_to_training_data` unchanged. -/
theorem identical_reward_group_dropped (tok : Tokenizer) (g : List Rollout)
    (pre post : List (List Rollout))
    (h : ∀ r ∈ g, ∀ s ∈ g, r.reward = s.reward) :
    groupData tok g = [] ∧
    trajectories_to_training_data tok (pre ++ g :: post) =
      trajectories_to_training_data tok (pre ++ post) := by
  have hg : groupData tok g = [] := by
    match g with
    | [] => simp [groupData]
    | r0 :: rest =>
      have hall : ∀ a ∈ groupAdvantages ((r0 :: rest).map (fun r => r.reward)), a = 0 := by
        intro a ha
        set rewards := (r0 :: rest).map (fun r => r.reward) with hrw
        have hmem : ∀ x ∈ rewards, x = r0.reward := by
          intro x hx
          rw [hrw] at hx
          obtain ⟨s, hs, hxeq⟩ := List.mem_map.mp hx
          rw [← hxeq]
          exact h s hs r0 (List.mem_cons_self _ _)
        have hne : rewards ≠ [] := by simp [hrw]
        have hlenq : (rewards.length : ℚ) ≠ 0 := by
          have : rewards.length ≠ 0 := fun hc => hne (List.eq_nil_of_length_eq_zero hc)
          exact_mod_cast this
        have hmean : rewards.sum / rewards.length = r0.reward := by
          rw [list_sum_const rewards r0.reward hmem]
          field_simp
        simp only [groupAdvantages, if_neg hne] at ha
        obtain ⟨x, hx, hxa⟩ := List.mem_map.mp ha
        rw [← hxa, hmean, hmem x hx, sub_self]
      have hall2 : ∀ a ∈ groupAdvantages (r0.reward :: rest.map (fun r => r.reward)), a = 0 := by
        simpa using hall
      simp [groupData, dif_pos hall2]
  refine ⟨hg, ?_⟩
  simp [trajectories_to_training_data, hg]

/-- Witness for C2: group of two rollouts with equal rewards, between two
other groups. -/
theorem identical_reward_group_dropped_witness :
    (∀ r ∈ ([⟨"", 1, "a"⟩, ⟨"", 1, "a"⟩] : List Rollout),
      ∀ s ∈ ([⟨"", 1, "a"⟩, ⟨"", 1, "a"⟩] : List Rollout), r.reward = s.reward) ∧
    (groupData ⟨fun _ _ => [0], 7⟩ [⟨"", 1, "a"⟩, ⟨"", 1, "a"⟩] = [] ∧
    trajectories_to_training_data ⟨fun _ _ => [0], 7⟩
        ([[⟨"", 0, "b"⟩]] ++ [⟨"", 1, "a"⟩, ⟨"", 1, "a"⟩] :: [[⟨"", 2, "c"⟩]]) =
      trajectories_to_training_data ⟨fun _ _ => [0], 7⟩ ([[⟨"", 0, "b"⟩]] ++ [[⟨"", 2, "c"⟩]])) :=
  ⟨by decide,
   identical_reward_group_dropped ⟨fun _ _ => [0], 7⟩ [⟨"", 1, "a"⟩, ⟨"", 1, "a"⟩]
     [[⟨"", 0, "b"⟩]] [[⟨"", 2, "c"⟩]] (by decide)⟩

/-- C3: every datum built by the pipeline has weights, targets and inputs of
equal length (given the tokenized input is non-empty, which holds for any
real tokenizer on the non-empty prompt), zero weights over the prompt-token
prefix, the scalar advantage over the completion-token suffix, and targets
equal to the input shifted left by one with the end-of-sequence token
appended. -/
theorem datum_shape (tok : Tokenizer) (rollout : Rollout) (advantage : ℚ) (d : Datum)
    (hbuild : buildDatum tok rollout advantage = some d)
    (hne : d.model_input ≠ []) :
    (d.weights.length = d.model_input.length ∧
     d.target_tokens.length = d.model_input.length) ∧
    d.target_tokens = d.model_input.drop 1 ++ [tok.eos_token_id] ∧
    ∃ p c, d.model_input = p ++ c ∧
      d.weights = List.replicate p.length (0 : ℚ) ++ List.replicate c.length advantage ∧
      (∃ ptext, p = tok.encode ptext true) ∧
      (∃ ctext, c = tok.encode ctext false) := by
  unfold buildDatum at hbuild
  cases hload : loads rollout.trajectory_json with
  | none => rw [hload] at hbuild; exact absurd hbuild (by simp)
  | some traj =>
    rw [hload] at hbuild
    simp only at hbuild
    split at hbuild
    · split at hbuild
      · exact absurd hbuild (by simp)
      · have hd := Option.some.inj hbuild
        subst hd
        set p := tok.encode ("Fix the following issue:\n" ++
          jsonText ((jget traj "problem_statement").getD (Json.str ""))) true with hp
        set c := tok.encode
          (jsonText ((jget traj "output_patch").getD (Json.str ""))) false with hc
        have hlen1 : (p ++ c).length ≠ 0 := by
          intro h0
          exact hne (List.eq_nil_of_length_eq_zero h0)
        refine ⟨⟨by simp, ?_⟩, by simp [List.drop_one], ?_⟩
        · simp only [List.length_append, List.length_drop, List.length_replicate,
            List.length_singleton] at *
          omega
        · exact ⟨p, c, rfl, rfl, ⟨_, rfl⟩, ⟨_, rfl⟩⟩
    · exact absurd hbuild (by simp)

/-- Witness tokenizer for C3: two prompt tokens, one completion token. -/
def tokW : Tokenizer := ⟨fun _ b => if b then [1, 2] else [3], 9⟩

/-- Witness rollout for C3. -/
def rolloutW : Rollout :=
  ⟨"\x7b\"problem_statement\": \"p\", \"output_patch\": \"fix\"\x7d", 1, "a"⟩

/-- Witness datum for C3. -/
def datumW : Datum := ⟨[1, 2, 3], [2, 3, 9], [0, 0, 5]⟩

/-- Witness for C3 at a concrete tokenizer and trajectory. -/
theorem datum_shape_witness :
    buildDatum tokW rolloutW 5 = some datumW ∧
    datumW.model_input ≠ [] ∧
    ((datumW.weights.length = datumW.model_input.length ∧
      datumW.target_tokens.length = datumW.model_input.length) ∧
     datumW.target_tokens = datumW.model_input.drop 1 ++ [tokW.eos_token_id] ∧
     ∃ p c, datumW.model_input = p ++ c ∧
       datumW.weights = List.replicate p.length (0 : ℚ) ++ List.replicate c.length 5 ∧
       (∃ ptext, p = tokW.encode ptext true) ∧
       (∃ ctext, c = tokW.encode ctext false)) :=
  ⟨by decide, by decide, datum_shape tokW rolloutW 5 datumW (by decide) (by decide)⟩

/-- The model output of the C4 round trip: one tagged block whose JSON
object is `{"name":"f","arguments":{"x":1}}`. -/
def c4text : String :=
  "<tool_call>\x7b\"name\":\"f\",\"arguments\":\x7b\"x\":1\x7d\x7d</tool_call>"

/-- C4: decoding a model output with exactly one tagged block
`{"name":"f","arguments":{"x":1}}` yields exactly one tool call with name
"f", type "function" and arguments serialized to the JSON string
`{"x": 1}`; and in general a block whose `arguments` value is not a string
has it serialized with `json.dumps`. -/
theorem single_block_roundtrip :
    (∀ fresh : Nat → String,
      parseToolCalls fresh c4text =
        [{ id := fresh 0, type := "function",
           function := { name := "f", arguments := "\x7b\"x\": 1\x7d" } }]) ∧
    (∀ id call v, jget call "arguments" = some v → isStr v = false →
      (toToolCall id call).function.arguments = dumps v) := by
  constructor
  · intro fresh
    rfl
  · intro id call v hv hnstr
    unfold toToolCall
    rw [hv]
    simp only [Option.getD_some]
    cases v with
    | str s => simp [isStr] at hnstr
    | null => rfl
    | bool b => rfl
    | num n => rfl
    | arr xs => rfl
    | obj ms => rfl

/-- Witness for C4's general serialization clause at a non-string
`arguments` value. -/
theorem single_block_roundtrip_witness :
    jget (Json.obj [("arguments", Json.num 1)]) "arguments" = some (Json.num 1) ∧
    isStr (Json.num 1) = false ∧
    (toToolCall "i" (Json.obj [("arguments", Json.num 1)])).function.arguments =
      dumps (Json.num 1) :=
  ⟨rfl, rfl, single_block_roundtrip.2 "i" (Json.obj [("arguments", Json.num 1)]) (Json.num 1) rfl rfl⟩

/-- Decoded model output for the C5 counterexample: text with trailing
whitespace before a valid tagged block. -/
def hiText : String :=
  "hi <tool_call>\x7b\"name\": \"f\", \"arguments\": \x7b\x7d\x7d</tool_call>"

/-- Concrete server for the C5 counterexample: the remote sampler succeeds
and the decoded output is `hiText`. -/
def srvCE : Server :=
  { model_name := "m"
    apply_chat_template := fun _ _ _ => ""
    encode := fun _ => []
    decode := fun _ => hiText
    sample := fun _ => Except.ok [0]
    fresh_id := fun _ => "call_0" }

/-- C5 counterexample: with tools supplied and a parseable block present,
the text preceding the first tagged block is "hi " but the response content
is the whitespace-stripped "hi", so the content is NOT the text preceding
the first tagged block as the claim states. -/
theorem content_not_raw_prefix :
    textBeforeTag hiText = "hi " ∧
    (generate srvCE [] 1 16 none (some [Json.null])).toOption.map
        (fun c => c.choices.map (fun ch => (ch.finish_reason, ch.message.content))) =
      some [("tool_calls", some "hi")] ∧
    (some "hi" : Option String) ≠ some "hi " :=
  ⟨rfl, rfl, by decide⟩

/-- C5 as amended: with tools supplied (a non-empty tool list) and a
successful sample, if the decoded output contains at least one parseable
tool-call block then the finish reason is "tool_calls", the content is the
text preceding the first tagged block stripped of surrounding whitespace
(absent when that is empty) and the tool calls are populated; otherwise the
finish reason is "stop" and the content is the full decoded text. -/
theorem generate_finish_reason (srv : Server) (messages : List Json) (t : ℚ)
    (mt : Nat) (stop : Option (List String)) (t0 : Json) (ts : List Json)
    (toks : List Nat)
    (hs : srv.sample { max_tokens := mt, temperature := effective_temperature t,
                       stop := stop.getD [] } = Except.ok toks) :
    ∃ choice,
      generate srv messages t mt stop (some (t0 :: ts)) =
        Except.ok
          { model := srv.model_name
            choices := [choice]
            usage := { prompt_tokens :=
                         (srv.encode (srv.apply_chat_template messages true
                           (some (t0 :: ts)))).length
                       completion_tokens := toks.length
                       total_tokens :=
                         (srv.encode (srv.apply_chat_template messages true
                           (some (t0 :: ts)))).length + toks.length } } ∧
      ((parseToolCalls srv.fresh_id (srv.decode toks) ≠ [] ∧
        choice.finish_reason = "tool_calls" ∧
        choice.message.content = stripOrNone (textBeforeTag (srv.decode toks)) ∧
        choice.message.tool_calls = some (parseToolCalls srv.fresh_id (srv.decode toks))) ∨
       (parseToolCalls srv.fresh_id (srv.decode toks) = [] ∧
        choice.finish_reason = "stop" ∧
        choice.message.content = some (srv.decode toks) ∧
        choice.message.tool_calls = none)) := by
  by_cases hc : parseToolCalls srv.fresh_id (srv.decode toks) = []
  · refine ⟨{ index := 0
              message := { role := "assistant"
                           content := some (srv.decode toks)
                           tool_calls := none }
              finish_reason := "stop" }, ?_, Or.inr ⟨hc, rfl, rfl, rfl⟩⟩
    unfold generate
    dsimp only
    rw [hs]
    dsimp only
    rw [if_pos hc]
  · refine ⟨{ index := 0
              message := { role := "assistant"
                           content := stripOrNone (textBeforeTag (srv.decode toks))
                           tool_calls := some (parseToolCalls srv.fresh_id (srv.decode toks)) }
              finish_reason := "tool_calls" }, ?_, Or.inl ⟨hc, rfl, rfl, rfl⟩⟩
    unfold generate
    dsimp only
    rw [hs]
    dsimp only
    rw [if_neg hc]

/-- Concrete server for the C5 witness: the decoded output "x" contains no
tagged block. -/
def srvGW : Server :=
  { model_name := "m"
    apply_chat_template := fun _ _ _ => "p"
    encode := fun _ => [1]
    decode := fun _ => "x"
    sample := fun _ => Except.ok [0]
    fresh_id := fun _ => "c" }

/-- Witness for the amended C5 at a concrete server, exercising the "stop"
branch. -/
theorem generate_finish_reason_witness :
    srvGW.sample { max_tokens := 7, temperature := effective_temperature 1,
                   stop := (none : Option (List String)).getD [] } = Except.ok [0] ∧
    (∃ choice,
      generate srvGW [] 1 7 none (some (Json.null :: [])) =
        Except.ok
          { model := srvGW.model_name
            choices := [choice]
            usage := { prompt_tokens :=
                         (srvGW.encode (srvGW.apply_chat_template [] true
                           (some (Json.null :: [])))).length
                       completion_tokens := ([0] : List Nat).length
                       total_tokens :=
                         (srvGW.encode (srvGW.apply_chat_template [] true
                           (some (Json.null :: [])))).length + ([0] : List Nat).length } } ∧
      ((parseToolCalls srvGW.fresh_id (srvGW.decode [0]) ≠ [] ∧
        choice.finish_reason = "tool_calls" ∧
        choice.message.content = stripOrNone (textBeforeTag (srvGW.decode [0])) ∧
        choice.message.tool_calls = some (parseToolCalls srvGW.fresh_id (srvGW.decode [0]))) ∨
       (parseToolCalls srvGW.fresh_id (srvGW.decode [0]) = [] ∧
        choice.finish_reason = "stop" ∧
        choice.message.content = some (srvGW.decode [0]) ∧
        choice.message.tool_calls = none))) :=
  ⟨rfl, generate_finish_reason srvGW [] 1 7 none Json.null [] [0] rfl⟩

/-- A helper for C6: `generate` without tools, given a successful sample,
returns the "stop"-shaped completion (no tool parsing). -/
theorem generate_no_tools_ok (srv : Server) (messages : List Json) (t : ℚ)
    (mt : Nat) (stop : Option (List String)) (toks : List Nat)
    (hs : srv.sample { max_tokens := mt, temperature := effective_temperature t,
                       stop := stop.getD [] } = Except.ok toks) :
    generate srv messages t mt stop none =
      Except.ok
        { model := srv.model_name
          choices := [{ index := 0
                        message := { role := "assistant"
                                     content := some (srv.decode toks)
                                     tool_calls := none }
                        finish_reason := "stop" }]
          usage := { prompt_tokens :=
                       (srv.encode (srv.apply_chat_template messages true none)).length
                     completion_tokens := toks.length
                     total_tokens :=
                       (srv.encode (srv.apply_chat_template messages true none)).length +
                         toks.length } } := by
  unfold generate
  dsimp only
  rw [hs]
  rfl

/-- The C6 request body: a chat-completions request with temperature 0. -/
def c6payload : String := "\x7b\"temperature\": 0\x7d"

/-- C6: the temperature forwarded to the remote sampler is `max(t, 0.01)`,
which is never zero (a requested temperature of 0 becomes the floor 1/100);
and a POST of a chat-completions body with temperature 0 is answered with
status 200 whenever the remote sampler accepts every nonzero temperature. -/
theorem temperature_never_zero (srv : Server)
    (hs : ∀ p : SamplingParams, p.temperature ≠ 0 → ∃ toks, srv.sample p = Except.ok toks) :
    (∀ t : ℚ, effective_temperature t ≠ 0) ∧
    effective_temperature 0 = 1 / 100 ∧
    (∃ c, do_POST srv "/v1/chat/completions" (some "18") c6payload =
      HttpOutcome.response 200 (ResponseBody.completionR c)) := by
  have hpos : ∀ t : ℚ, (0 : ℚ) < effective_temperature t := by
    intro t
    have h1 : (0 : ℚ) < 1 / 100 := by norm_num
    exact lt_of_lt_of_le h1 (le_max_right t (1 / 100))
  have heff0 : effective_temperature 0 = 1 / 100 := by
    unfold effective_temperature
    rw [max_eq_right (by norm_num : (0 : ℚ) ≤ 1 / 100)]
  refine ⟨fun t => ne_of_gt (hpos t), heff0, ?_⟩
  obtain ⟨toks, htoks⟩ :=
    hs { max_tokens := 4096, temperature := effective_temperature ((0 : Int) : ℚ), stop := [] }
      (ne_of_gt (hpos _))
  have hgen := generate_no_tools_ok srv [] ((0 : Int) : ℚ) 4096 none toks htoks
  refine ⟨{ model := srv.model_name
            choices := [{ index := 0
                          message := { role := "assistant"
                                       content := some (srv.decode toks)
                                       tool_calls := none }
                          finish_reason := "stop" }]
            usage := { prompt_tokens :=
                         (srv.encode (srv.apply_chat_template [] true none)).length
                       completion_tokens := toks.length
                       total_tokens :=
                         (srv.encode (srv.apply_chat_template [] true none)).length +
                           toks.length } }, ?_⟩
  unfold do_POST
  rw [if_pos (Or.inl rfl)]
  dsimp only
  have hcl : pyInt "18" = some 18 := rfl
  have hbody : loads (readBody 18 c6payload) =
      some (Json.obj [("temperature", Json.num 0)]) := rfl
  rw [hcl]
  dsimp only
  rw [hbody]
  dsimp only
  have hm1 : jget (Json.obj [("temperature", Json.num 0)]) "messages" = none := rfl
  have hm2 : jget (Json.obj [("temperature", Json.num 0)]) "temperature" =
      some (Json.num 0) := rfl
  have hm3 : jget (Json.obj [("temperature", Json.num 0)]) "max_tokens" = none := rfl
  have hm4 : jget (Json.obj [("temperature", Json.num 0)]) "stop" = none := rfl
  have hm5 : jget (Json.obj [("temperature", Json.num 0)]) "tools" = none := rfl
  rw [hm1, hm2, hm3, hm4, hm5]
  dsimp only
  rw [hgen]

/-- Concrete server for the C6 witness: the sampler accepts everything. -/
def srvTW : Server :=
  { model_name := "m"
    apply_chat_template := fun _ _ _ => "p"
    encode := fun _ => [1]
    decode := fun _ => "x"
    sample := fun _ => Except.ok [0]
    fresh_id := fun _ => "c" }

/-- Witness for C6 at a concrete server whose sampler always succeeds. -/
theorem temperature_never_zero_witness :
    (∀ p : SamplingParams, p.temperature ≠ 0 → ∃ toks, srvTW.sample p = Except.ok toks) ∧
    ((∀ t : ℚ, effective_temperature t ≠ 0) ∧
     effective_temperature 0 = 1 / 100 ∧
     (∃ c, do_POST srvTW "/v1/chat/completions" (some "18") c6payload =
       HttpOutcome.response 200 (ResponseBody.completionR c))) :=
  ⟨fun _ _ => ⟨[0], rfl⟩, temperature_never_zero srvTW (fun _ _ => ⟨[0], rfl⟩)⟩

/-- C8: a training step whose batch is empty issues no service call at all
and is recorded with loss 0 and zero samples (the function is total, so the
step completes without raising). -/
theorem empty_batch_noop (fb_metrics : List Datum → Option (List (String × ℚ)))
    (learning_rate : ℚ) :
    train_step fb_metrics [] learning_rate = ({ loss := 0, num_samples := 0 }, []) := by
  simp [train_step]

/-- C9: on the chat-completions paths, a missing `Content-Length` header, a
non-integer header value, or a body that is not valid JSON makes the
exception escape the handler (`HttpOutcome.raised`): such a request is never
answered, in particular not with the status-500 JSON error body, which
covers only `generate` failures. -/
theorem bad_body_propagates (srv : Server) (path : String)
    (contentLengthHeader : Option String) (stream : String)
    (hpath : path = "/v1/chat/completions" ∨ path = "/chat/completions")
    (hbad : contentLengthHeader = none ∨
            (∃ s, contentLengthHeader = some s ∧ pyInt s = none) ∨
            (∃ s n, contentLengthHeader = some s ∧ pyInt s = some n ∧
              loads (readBody n stream) = none)) :
    (∃ reason, do_POST srv path contentLengthHeader stream = HttpOutcome.raised reason) ∧
    ∀ m, do_POST srv path contentLengthHeader stream ≠
      HttpOutcome.response 500 (ResponseBody.errorR m) := by
  have hout : ∃ reason,
      do_POST srv path contentLengthHeader stream = HttpOutcome.raised reason := by
    unfold do_POST
    rw [if_pos hpath]
    rcases hbad with hnone | ⟨s, hsome, hint⟩ | ⟨s, n, hsome, hint, hjson⟩
    · rw [hnone]
      exact ⟨_, rfl⟩
    · rw [hsome]
      dsimp only
      rw [hint]
      exact ⟨_, rfl⟩
    · rw [hsome]
      dsimp only
      rw [hint]
      dsimp only
      rw [hjson]
      exact ⟨_, rfl⟩
  obtain ⟨reason, hr⟩ := hout
  refine ⟨⟨reason, hr⟩, ?_⟩
  intro m hc
  rw [hr] at hc
  exact HttpOutcome.noConfusion hc

/-- Witness for C9: a well-formed length header over a body that is not
JSON. -/
theorem bad_body_propagates_witness :
    ("/v1/chat/completions" = "/v1/chat/completions" ∨
     "/v1/chat/completions" = "/chat/completions") ∧
    ((some "5" : Option String) = none ∨
     (∃ s, (some "5" : Option String) = some s ∧ pyInt s = none) ∨
     (∃ s n, (some "5" : Option String) = some s ∧ pyInt s = some n ∧
       loads (readBody n "notjs") = none)) ∧
    ((∃ reason, do_POST srvTW "/v1/chat/completions" (some "5") "notjs" =
       HttpOutcome.raised reason) ∧
     ∀ m, do_POST srvTW "/v1/chat/completions" (some "5") "notjs" ≠
       HttpOutcome.response 500 (ResponseBody.errorR m)) :=
  ⟨Or.inl rfl, Or.inr (Or.inr ⟨"5", 5, rfl, rfl, rfl⟩),
   bad_body_propagates srvTW "/v1/chat/completions" (some "5") "notjs" (Or.inl rfl)
     (Or.inr (Or.inr ⟨"5", 5, rfl, rfl, rfl⟩))⟩

/-- The model output of C7: one malformed block followed by one valid
block. -/
def c7text : String :=
  "<tool_call>\x7boops\x7d</tool_call><tool_call>\x7b\"name\": \"g\", \"arguments\": \x7b\x7d\x7d</tool_call>"

/-- C7: decoding is total and yields one tool call per block whose JSON
decodes (a failing block is skipped without aborting the rest); on the
concrete input both blocks are recognized, the first fails to decode, and
exactly the valid one is returned. -/
theorem malformed_block_skipped :
    (∀ fresh text, (parseToolCalls fresh text).length =
      ((findBlocks text).filterMap loads).length) ∧
    findBlocks c7text = ["\x7boops\x7d", "\x7b\"name\": \"g\", \"arguments\": \x7b\x7d\x7d"] ∧
    loads "\x7boops\x7d" = none ∧
    (∀ fresh : Nat → String,
      parseToolCalls fresh c7text =
        [{ id := fresh 0, type := "function",
           function := { name := "g", arguments := "\x7b\x7d" } }]) := by
  refine ⟨?_, rfl, rfl, fun fresh => rfl⟩
  intro fresh text
  simp [parseToolCalls]

/-- The model output of C10: one tagged block that is a valid JSON object
with neither a `name` nor an `arguments` key. -/
def c10text : String := "<tool_call>\x7b\x7d</tool_call>"

/-- C10: a block that decodes to a JSON object lacking `name` and
`arguments` is not skipped: it yields a tool call whose name defaults to
the empty string and whose arguments default to the JSON string empty
object. -/
theorem missing_keys_default :
    (∀ fresh : Nat → String,
      parseToolCalls fresh c10text =
        [{ id := fresh 0, type := "function",
           function := { name := "", arguments := "\x7b\x7d" } }]) ∧
    (∀ id ms, jget (Json.obj ms) "name" = none → jget (Json.obj ms) "arguments" = none →
      toToolCall id (Json.obj ms) =
        { id := id, type := "function", function := { name := "", arguments := "\x7b\x7d" } }) := by
  constructor
  · intro fresh
    rfl
  · intro id ms hname hargs
    unfold toToolCall
    rw [hname, hargs]
    rfl

/-- Witness for C10's general clause at the empty JSON object. -/
theorem missing_keys_default_witness :
    jget (Json.obj []) "name" = none ∧ jget (Json.obj []) "arguments" = none ∧
    toToolCall "i2" (Json.obj []) =
      { id := "i2", type := "function", function := { name := "", arguments := "\x7b\x7d" } } :=
  ⟨rfl, rfl, missing_keys_default.2 "i2" [] rfl rfl⟩
